import Mathlib

/-!
Verification of the Ionizer RPC interface layer of pydase-service-base
(`src/pydase_service_base/ionizer_interface/rpc_interface.py`).

The Python layer bridges a typed in-process object tree ("service") to the
loosely typed Ionizer RPC surface.  We shallowly embed the live object tree,
the cached serialized snapshot, and the four RPC handlers.  External pydase
helpers (path resolution, cache lookup, serializer) are modelled faithfully
from their documented behaviour; the rpc_interface.py code itself is
translated line by line.

Conventions:
* A dotted access path `"a.b.c"` is embedded as the segment list
  `["a", "b", "c"]` (the output of `parse_full_access_path`).
* Python machine floats are embedded as rationals; the claims under study
  are not about floating-point rounding.
* Attribute access on the live tree is what may fire a property getter; the
  embedding of `set_param` records whether the *leaf* attribute was read
  before the final commit (`leafEvaluated`).
-/

namespace PydaseIonizer

/-- Primitive scalar values crossing the wire (Python `int`, `float`, `str`,
`bool`).  Note that in Python a `bool` is an instance of `int`. -/
inductive Prim where
  | int (i : Int)
  | num (q : ℚ)
  | str (s : String)
  | bool (b : Bool)
deriving DecidableEq

/-- A member of a Python `Enum` class: a name together with its underlying
value.  Definition order of the class is the order of the member list. -/
structure EnumMember where
  name : String
  value : Prim
deriving DecidableEq

/-- The `value` attribute of a pydase `NumberSlider`: either a pint
`Quantity` (magnitude and unit) or a plain number. -/
inductive SliderValue where
  | quantity (mag : ℚ) (unit : String)
  | plain (p : Prim)
deriving DecidableEq

mutual

/-- A live value in the service object tree: plain scalar, enum member
(together with its class's definition-order member list), pint quantity,
`NumberSlider` component (value plus range metadata), bound method (parameter
names with their annotation strings), or nested `DataService` object. -/
inductive LiveValue where
  | prim (p : Prim)
  | enumVal (cls : List EnumMember) (m : EnumMember)
  | quantity (mag : ℚ) (unit : String)
  | slider (sv : SliderValue) (minV maxV stepV : ℚ)
  | methodVal (mname : String) (params : List (String × String))
  | obj (attrs : LAttrs)

/-- Named attributes of a live object, in declaration order. -/
inductive LAttrs where
  | nil
  | cons (aname : String) (v : LiveValue) (rest : LAttrs)

end

mutual

/-- A node of the serialized tree (a pydase `SerializedObject` dict):
a `type` tag, a payload whose shape depends on the tag, and the optional
`parameters` key that `add_parameters_keyword_to_dict` installs on method
nodes (absent in freshly serialized trees). -/
inductive SerializedObject where
  | mk (tag : String) (value : SerialValue) (parameters : Option (List (String × Option String)))

/-- Payload of a serialized node: a primitive, a quantity payload
(`{"magnitude": m, "unit": u}`), a dict of named child nodes (for
`DataService` containers and `NumberSlider` components), or a method
signature (`signature.parameters`: name and annotation string per
parameter, with `value` being `None`). -/
inductive SerialValue where
  | prim (p : Prim)
  | quantity (mag : ℚ) (unit : String)
  | attrs (children : SAttrs)
  | signature (sig : List (String × String))

/-- Named child nodes of a serialized container node. -/
inductive SAttrs where
  | nil
  | cons (aname : String) (child : SerializedObject) (rest : SAttrs)

end

/-- Tag of a serialized node. -/
def SerializedObject.tag : SerializedObject → String
  | .mk t _ _ => t

/-- Payload of a serialized node. -/
def SerializedObject.value : SerializedObject → SerialValue
  | .mk _ v _ => v

/-- The optional `parameters` entry of a serialized node. -/
def SerializedObject.parameters :
    SerializedObject → Option (List (String × Option String))
  | .mk _ _ p => p

/-- The single-quote character (code point 39). -/
def quoteChar : Char := Char.ofNat 39

/-- Whether the pattern (first argument) occurs at the start of the second
list. -/
def charsStartWith : List Char → List Char → Bool
  | [], _ => true
  | _ :: _, [] => false
  | a :: as, b :: bs => a == b && charsStartWith as bs

/-- Whether the pattern `pat` occurs somewhere inside `l`. -/
def charsContain (l pat : List Char) : Bool :=
  match l with
  | [] => charsStartWith pat []
  | _ :: rest => charsStartWith pat l || charsContain rest pat

/-- Python's `needle in hay` on strings: substring containment. -/
def strContains (hay needle : String) : Bool :=
  charsContain hay.data needle.data

/-- View of a slider's `value` attribute as a live value. -/
def liveOfSliderVal : SliderValue → LiveValue
  | .quantity m u => .quantity m u
  | .plain p => .prim p

/-- Lookup of a named attribute in an attribute list. -/
def lookupLAttrs : LAttrs → String → Option LiveValue
  | .nil, _ => none
  | .cons a v rest, n => if a = n then some v else lookupLAttrs rest n

/-- Modelled from the spec: attribute lookup on a live object, the basic
step of pydase's path helpers.  This is a `getattr`, i.e. the point where a
property getter would fire.  `DataService` objects expose their named
attributes; a `NumberSlider` exposes its `value` and range attributes;
scalars expose none that this layer traverses. -/
def getattrLive : LiveValue → String → Option LiveValue
  | .obj attrs, n => lookupLAttrs attrs n
  | .slider sv minV maxV stepV, n =>
      if n = "value" then some (liveOfSliderVal sv)
      else if n = "min" then some (.prim (.num minV))
      else if n = "max" then some (.prim (.num maxV))
      else if n = "step_size" then some (.prim (.num stepV))
      else none
  | _, _ => none

/-- Modelled from the spec: pydase's `get_object_by_path_parts`, walking the
live tree one attribute access per path segment; fails (raises) when a
segment is missing. -/
def get_object_by_path_parts : LiveValue → List String → Option LiveValue
  | v, [] => some v
  | v, n :: rest =>
      match getattrLive v n with
      | some v2 => get_object_by_path_parts v2 rest
      | none => none

/-- Lookup of a named child in a serialized container's child list. -/
def lookupSAttrs : SAttrs → String → Option SerializedObject
  | .nil, _ => none
  | .cons a c rest, n => if a = n then some c else lookupSAttrs rest n

/-- Modelled from the spec: pydase's `get_nested_dict_by_path`, descending
through the cached serialized snapshot: each segment selects a child of the
current node's `value` dict.  Returns `none` (a `KeyError` in Python) when
the path has no entry in the snapshot. -/
def get_nested_dict_by_path : SAttrs → List String → Option SerializedObject
  | _, [] => none
  | t, [n] => lookupSAttrs t n
  | t, n :: rest =>
      match lookupSAttrs t n with
      | some (.mk _ (.attrs children) _) => get_nested_dict_by_path children rest
      | _ => none

/-- Python's `isinstance(value, int)`: true for `int` and for `bool`
(`bool` is a subclass of `int`). -/
def isInstInt : Prim → Bool
  | .int _ => true
  | .bool _ => true
  | _ => false

/-- The integer a Python int-instance stands for (`True` is `1`). -/
def intOfPrim : Prim → Int
  | .int i => i
  | .bool b => if b then 1 else 0
  | _ => 0

/-- Effective index of Python list indexing: negative indices count from
the back. -/
def pyIndex (i : Int) (n : Nat) : Int :=
  if i < 0 then i + n else i

/-- Python list indexing `l[i]`: non-negative effective indices look up
from the front (`none`, i.e. `IndexError`, past the end), a still-negative
effective index is an `IndexError`. -/
def pyListGet {α : Type} (l : List α) (i : Int) : Option α :=
  if 0 ≤ pyIndex i l.length then l.get? (pyIndex i l.length).toNat else none

/-- Errors surfaced to the RPC caller by the handlers, by Python exception
kind. -/
inductive PyErr where
  | pathError
  | keyError
  | indexError
  | attributeError
  | typeError
deriving DecidableEq

/-- The value handed to the single commit call: either the raw wire value
passed through unchanged, a substituted enum member, or a freshly built
quantity (magnitude paired with a unit). -/
inductive CoercedValue where
  | wire (p : Prim)
  | member (m : EnumMember)
  | quantity (mag : ℚ) (unit : String)
deriving DecidableEq

/-- The single mutation performed by `set_param` on success: the effective
access path and the coerced value that is wrapped in `dump(...)` and handed
to `state_manager.set_service_attribute_value_by_path`. -/
structure Commit where
  path : List String
  value : CoercedValue
deriving DecidableEq

/-- Outcome of `set_param`: the result (commit or propagated error) together
with whether the live *leaf* attribute was read (i.e. a `getattr` that would
fire a property getter on the leaf segment) before the commit. -/
structure SetParamResult where
  result : Except PyErr Commit
  leafEvaluated : Bool

/-- Numeric magnitude of the value standing left of `* unit`: Python ints,
floats and bools multiply with a pint unit; strings and enum members do
not. -/
def numOfCoerced : CoercedValue → Option ℚ
  | .wire (.int i) => some (i : ℚ)
  | .wire (.num q) => some q
  | .wire (.bool b) => some (if b then 1 else 0)
  | _ => none

/-- Unit entry of a serialized `Quantity` payload (`value["unit"]`). -/
def unitOfSerial : SerialValue → Option String
  | .quantity _ u => some u
  | _ => none

/-- Children dict of a serialized payload (`node["value"]` as a dict). -/
def childOfSerial (v : SerialValue) (n : String) : Option SerializedObject :=
  match v with
  | .attrs children => lookupSAttrs children n
  | _ => none

/-- Tail of `set_param` (rpc_interface.py lines 123-135): after the enum
reinterpretation, dispatch on the cached tag: `"Quantity"` pairs the value
with the unit read from the live leaf (a leaf `getattr`); `"NumberSlider"`
redirects the path to `.value` and, when the cached inner node is a
quantity, pairs the value with the unit recorded in the cached snapshot
(no live access); anything else commits the value unchanged. -/
def set_param_tail (parent : LiveValue) (leaf : String) (tag : String)
    (nv : SerialValue) (path : List String) (v : CoercedValue)
    (fired : Bool) : SetParamResult :=
  if tag = "Quantity" then
    match getattrLive parent leaf with
    | some (.quantity _ u) =>
        match numOfCoerced v with
        | some q => ⟨.ok ⟨path, .quantity q u⟩, true⟩
        | none => ⟨.error .typeError, true⟩
    | some _ => ⟨.error .attributeError, true⟩
    | none => ⟨.error .attributeError, true⟩
  else if tag = "NumberSlider" then
    match childOfSerial nv "value" with
    | some (.mk itag iv _) =>
        if itag = "Quantity" then
          match unitOfSerial iv with
          | some u =>
              match numOfCoerced v with
              | some q => ⟨.ok ⟨path ++ ["value"], .quantity q u⟩, fired⟩
              | none => ⟨.error .typeError, fired⟩
          | none => ⟨.error .keyError, fired⟩
        else ⟨.ok ⟨path ++ ["value"], v⟩, fired⟩
    | none => ⟨.error .keyError, fired⟩
  else ⟨.ok ⟨path, v⟩, fired⟩

/-- Embedding of `RPCInterface.set_param` (rpc_interface.py lines 110-135).
The service root attributes and the cached snapshot stand for
`self._service` and `self._state_manager.cache_value`; the path is the
parsed segment list.  Steps in source order: resolve the parent object over
`path_parts[:-1]`, look the full path up in the cached snapshot, apply the
enum definition-order-index rule when the cached tag contains `"Enum"` and
the wire value is an `int` instance (this reads the live leaf to obtain its
class), then the quantity/slider dispatch, and finally the single commit. -/
def set_param (svc : LAttrs) (cache : SAttrs) (path : List String)
    (value : Prim) : SetParamResult :=
  match path.getLast? with
  | none => ⟨.error .pathError, false⟩
  | some leaf =>
    match get_object_by_path_parts (.obj svc) path.dropLast with
    | none => ⟨.error .pathError, false⟩
    | some parent =>
      match get_nested_dict_by_path cache path with
      | none => ⟨.error .keyError, false⟩
      | some (.mk tag nv _) =>
        if strContains tag "Enum" ∧ isInstInt value then
          match getattrLive parent leaf with
          | some (.enumVal cls _) =>
              match pyListGet cls (intOfPrim value) with
              | some m => set_param_tail parent leaf tag nv path (.member m) true
              | none => ⟨.error .indexError, true⟩
          | some _ => ⟨.error .typeError, true⟩
          | none => ⟨.error .attributeError, true⟩
        else
          set_param_tail parent leaf tag nv path (.wire value) false

/-- Serialized node for a slider's `value` attribute (part of the modelled
external serializer). -/
def serializeSliderVal : SliderValue → SerializedObject
  | .quantity m u => .mk "Quantity" (.quantity m u) none
  | .plain (.int i) => .mk "int" (.prim (.int i)) none
  | .plain p => .mk "float" (.prim p) none

/-- Serialized node for a plain float-valued attribute (modelled external
serializer helper). -/
def serializeFloat (q : ℚ) : SerializedObject :=
  .mk "float" (.prim (.num q)) none

mutual

/-- Modelled from the spec: the external pydase serializer (`dump` /
`DataService.serialize`), out of scope per spec section 1; node shapes per
spec section 3.  Each live value becomes a serialized node whose `type` tag
discriminates the payload. -/
def serializeLive : LiveValue → SerializedObject
  | .prim (.int i) => .mk "int" (.prim (.int i)) none
  | .prim (.num q) => .mk "float" (.prim (.num q)) none
  | .prim (.str s) => .mk "str" (.prim (.str s)) none
  | .prim (.bool b) => .mk "bool" (.prim (.bool b)) none
  | .enumVal _ m => .mk "Enum" (.prim (.str m.name)) none
  | .quantity m u => .mk "Quantity" (.quantity m u) none
  | .slider sv minV maxV stepV =>
      .mk "NumberSlider"
        (.attrs (.cons "value" (serializeSliderVal sv)
          (.cons "min" (serializeFloat minV)
            (.cons "max" (serializeFloat maxV)
              (.cons "step_size" (serializeFloat stepV) .nil))))) none
  | .methodVal _ ps => .mk "method" (.signature ps) none
  | .obj attrs => .mk "DataService" (.attrs (serializeAttrs attrs)) none

/-- Serialization of a live attribute list (the `value` dict of a
serialized `DataService` node). -/
def serializeAttrs : LAttrs → SAttrs
  | .nil => .nil
  | .cons n v rest => .cons n (serializeLive v) (serializeAttrs rest)

end

/-- Wire-shaped results of `get_param`: a bare scalar, a serialized subtree
(for `DataService` targets), or a formatted method descriptor string. -/
inductive WireOut where
  | prim (p : Prim)
  | serialized (s : SerializedObject)
  | methodRepr (s : String)

/-- Wire simplification performed by `RPCInterface.get_param`
(rpc_interface.py lines 92-108) on the resolved live value: a
`NumberSlider` unwraps to its inner value (magnitude only for a quantity),
a `DataService` serializes, a method formats as `name(arg1, arg2)`, an enum
member yields its underlying `value`, a quantity its magnitude, and
everything else passes through. -/
def simplifyLive : LiveValue → WireOut
  | .slider sv _ _ _ =>
      match sv with
      | .quantity m _ => .prim (.num m)
      | .plain p => .prim p
  | .obj attrs => .serialized (serializeLive (.obj attrs))
  | .methodVal mname ps =>
      .methodRepr (mname ++ "(" ++ String.intercalate ", " (ps.map Prod.fst) ++ ")")
  | .enumVal _ m => .prim m.value
  | .quantity m _ => .prim (.num m)
  | .prim p => .prim p

/-- Embedding of `RPCInterface.get_param` (rpc_interface.py lines 86-108):
resolve the live value at the full path (pydase's
`get_object_attr_from_path`), then simplify it for the wire. -/
def get_param (svc : LAttrs) (path : List String) : Except PyErr WireOut :=
  match get_object_by_path_parts (.obj svc) path with
  | none => .error .pathError
  | some v => .ok (simplifyLive v)

/-- Characters of the text standing before the next single quote; `none`
when no closing quote follows (the regex then has no match starting at the
already-consumed opening quote). -/
def takeUntilQuote : List Char → Option (List Char)
  | [] => none
  | c :: rest =>
      if c = quoteChar then some []
      else (takeUntilQuote rest).map (c :: ·)

/-- Scan for the first single quote and capture up to the matching closing
quote, the search semantics of `re.search("'([^']*)'", s)`. -/
def extract_type_name_aux : List Char → Option (List Char)
  | [] => none
  | c :: rest =>
      if c = quoteChar then takeUntilQuote rest
      else extract_type_name_aux rest

/-- Embedding of `extract_type_name` (rpc_interface.py lines 25-37): the
first single-quoted substring of the annotation string, or `None` when the
regex does not match. -/
def extract_type_name (type_annot : String) : Option String :=
  (extract_type_name_aux type_annot.data).map (fun l => ⟨l⟩)

/-- Embedding of `add_parameters_keyword_to_dict` (rpc_interface.py lines
40-49) restricted to its data content: from the signature's parameter list
(name and annotation string), build the `parameters` mapping name →
extracted bare type name. -/
def add_parameters_keyword_to_dict (sig : List (String × String)) :
    List (String × Option String) :=
  sig.map (fun pr => (pr.1, extract_type_name pr.2))

/-- The `parameters` mapping installed on a method node: built from the
node's `signature` payload (pydase method nodes always carry one). -/
def methodParametersOf (v : SerialValue) : List (String × Option String) :=
  match v with
  | .signature sig => add_parameters_keyword_to_dict sig
  | _ => []

mutual

/-- Embedding of `update_method_serialization` (rpc_interface.py lines
52-62): walk every serialized node (pydase's
`generate_serialized_data_paths` / `get_nested_dict_by_path` loop) and, on
each node whose tag is `"method"`, install the `parameters` mapping. -/
def update_method_serialization : SAttrs → SAttrs
  | .nil => .nil
  | .cons n c rest =>
      .cons n (updateMethodNode c) (update_method_serialization rest)

/-- Per-node step of the method-serialization update: recurse into child
nodes and enrich `"method"`-tagged nodes. -/
def updateMethodNode : SerializedObject → SerializedObject
  | .mk tag v ps =>
      let v2 := updateMethodChildren v
      if tag = "method" then .mk tag v2 (some (methodParametersOf v2))
      else .mk tag v2 ps

/-- Recursion of the update into a node's children (only container payloads
have serialized children to walk into). -/
def updateMethodChildren : SerialValue → SerialValue
  | .attrs children => .attrs (update_method_serialization children)
  | v => v

end

mutual

/-- Structural copy of a serialized attribute dict, the `copy.deepcopy` in
`get_props`. -/
def deepcopyAttrs : SAttrs → SAttrs
  | .nil => .nil
  | .cons n c rest => .cons n (deepcopyNode c) (deepcopyAttrs rest)

/-- Structural copy of a serialized node. -/
def deepcopyNode : SerializedObject → SerializedObject
  | .mk tag v ps => .mk tag (deepcopyValue v) ps

/-- Structural copy of a serialized payload. -/
def deepcopyValue : SerialValue → SerialValue
  | .attrs children => .attrs (deepcopyAttrs children)
  | v => v

end

/-- Embedding of `RPCInterface.get_props` (rpc_interface.py lines 81-84):
deep-copy the serialized service tree's `value` dict and run the
method-serialization update over it. -/
def get_props (svc : LAttrs) : SAttrs :=
  update_method_serialization (deepcopyAttrs (serializeAttrs svc))

/-- State-passing view of the `get_props` handler: the handler reads the
service (the external serializer is a read-only projection) and mutates
only the deep copy, so the service state passes through unchanged. -/
def get_props_op (svc : LAttrs) : SAttrs × LAttrs :=
  (get_props svc, svc)

/-- Commits performed by one `set_param` call: exactly the single final
commit on success, none when an error propagates. -/
def set_param_commits (svc : LAttrs) (cache : SAttrs) (path : List String)
    (value : Prim) : List Commit :=
  match (set_param svc cache path value).result with
  | .ok c => [c]
  | .error _ => []

/-- Service state after one `set_param` call, for an arbitrary external
attribute-setter primitive `applyC` (the state manager's
`set_service_attribute_value_by_path`, external to this layer): each
produced commit is applied in order. -/
def set_param_run (applyC : LAttrs → Commit → LAttrs) (svc : LAttrs)
    (cache : SAttrs) (path : List String) (value : Prim) : LAttrs :=
  (set_param_commits svc cache path value).foldl applyC svc

/-- A three-member enum class (definition order `A`, `B`, `C`) whose member
values differ from the members' positions. -/
def clsABC : List EnumMember :=
  [⟨"A", .int 10⟩, ⟨"B", .int 20⟩, ⟨"C", .int 30⟩]

/-- A service with a single enum-typed attribute `mode`, currently `A`. -/
def svcEnum : LAttrs := .cons "mode" (.enumVal clsABC ⟨"A", .int 10⟩) .nil

/-- Cached snapshot matching `svcEnum`. -/
def cacheEnum : SAttrs := .cons "mode" (.mk "Enum" (.prim (.str "A")) none) .nil

/-- A service with a single quantity-typed attribute `volt`, currently
5 volt. -/
def svcQ : LAttrs := .cons "volt" (.quantity 5 "V") .nil

/-- Cached snapshot matching `svcQ`. -/
def cacheQ : SAttrs := .cons "volt" (.mk "Quantity" (.quantity 5 "V") none) .nil

/-- The same service after `volt` was set to 10 volt. -/
def svcQ10 : LAttrs := .cons "volt" (.quantity 10 "V") .nil

/-- A service with a `NumberSlider` attribute `amp` wrapping a quantity of
unit ampere. -/
def svcS : LAttrs := .cons "amp" (.slider (.quantity 1 "A") 0 10 1) .nil

/-- Cached snapshot matching `svcS`. -/
def cacheS : SAttrs :=
  .cons "amp" (.mk "NumberSlider"
    (.attrs (.cons "value" (.mk "Quantity" (.quantity 1 "A") none) .nil)) none) .nil

/-- A service exposing one method `configure(gain: int, offset: float)`. -/
def svcM : LAttrs :=
  .cons "configure"
    (.methodVal "configure"
      [("gain", "<class 'int'>"), ("offset", "<class 'float'>")]) .nil

/-! ## Helper lemmas -/

/-- A tag that contains the substring `"Enum"` is not the tag
`"Quantity"`. -/
theorem enum_tag_ne_quantity {tag : String}
    (h : strContains tag "Enum" = true) : tag ≠ "Quantity" := by
  intro heq; subst heq; exact absurd h (by decide)

/-- A tag that contains the substring `"Enum"` is not the tag
`"NumberSlider"`. -/
theorem enum_tag_ne_slider {tag : String}
    (h : strContains tag "Enum" = true) : tag ≠ "NumberSlider" := by
  intro heq; subst heq; exact absurd h (by decide)

/-- Unfolding of `set_param` once path resolution and cache lookup results
are known. -/
theorem set_param_eq (svc : LAttrs) (cache : SAttrs) (path : List String)
    (leaf : String) (parent : LiveValue) (tag : String) (nv : SerialValue)
    (pr : Option (List (String × Option String))) (value : Prim)
    (hleaf : path.getLast? = some leaf)
    (hpar : get_object_by_path_parts (.obj svc) path.dropLast = some parent)
    (hcache : get_nested_dict_by_path cache path = some (.mk tag nv pr)) :
    set_param svc cache path value =
      if strContains tag "Enum" ∧ isInstInt value then
        match getattrLive parent leaf with
        | some (.enumVal cls _) =>
            match pyListGet cls (intOfPrim value) with
            | some m => set_param_tail parent leaf tag nv path (.member m) true
            | none => ⟨.error .indexError, true⟩
        | some _ => ⟨.error .typeError, true⟩
        | none => ⟨.error .attributeError, true⟩
      else set_param_tail parent leaf tag nv path (.wire value) false := by
  unfold set_param
  rw [hleaf, hpar, hcache]

/-- The leaf flag produced by the tail of `set_param`: the `"Quantity"`
branch always reads the live leaf; the other branches keep the incoming
flag. -/
theorem set_param_tail_fired (parent : LiveValue) (leaf tag : String)
    (nv : SerialValue) (path : List String) (v : CoercedValue) (fired : Bool) :
    (set_param_tail parent leaf tag nv path v fired).leafEvaluated =
      (decide (tag = "Quantity") || fired) := by
  unfold set_param_tail
  by_cases h : tag = "Quantity"
  · rw [if_pos h, decide_eq_true h, Bool.true_or]
    repeat' split
    all_goals rfl
  · rw [if_neg h, decide_eq_false h, Bool.false_or]
    repeat' split
    all_goals rfl

/-- The tail of `set_param` on any tag other than `"Quantity"` and
`"NumberSlider"` commits the incoming value at the unchanged path. -/
theorem set_param_tail_other (parent : LiveValue) (leaf tag : String)
    (nv : SerialValue) (path : List String) (v : CoercedValue) (fired : Bool)
    (hq : tag ≠ "Quantity") (hs : tag ≠ "NumberSlider") :
    set_param_tail parent leaf tag nv path v fired = ⟨.ok ⟨path, v⟩, fired⟩ := by
  unfold set_param_tail
  rw [if_neg hq, if_neg hs]

/-- The tail of `set_param` on the `"Quantity"` tag: read the live leaf's
unit and pair it with the numeric wire value. -/
theorem set_param_tail_quantity (parent : LiveValue) (leaf : String)
    (nv : SerialValue) (path : List String) (v : CoercedValue) (fired : Bool)
    (m : ℚ) (u : String) (q : ℚ)
    (hattr : getattrLive parent leaf = some (.quantity m u))
    (hnum : numOfCoerced v = some q) :
    set_param_tail parent leaf "Quantity" nv path v fired =
      ⟨.ok ⟨path, .quantity q u⟩, true⟩ := by
  unfold set_param_tail
  rw [if_pos rfl]
  rw [hattr]
  simp only [hnum]

/-- The tail of `set_param` on the `"NumberSlider"` tag, expressed over the
cached inner node. -/
theorem set_param_tail_slider (parent : LiveValue) (leaf : String)
    (nv : SerialValue) (path : List String) (v : CoercedValue) (fired : Bool) :
    set_param_tail parent leaf "NumberSlider" nv path v fired =
      match childOfSerial nv "value" with
      | some (.mk itag iv _) =>
          if itag = "Quantity" then
            match unitOfSerial iv with
            | some u =>
                match numOfCoerced v with
                | some q => ⟨.ok ⟨path ++ ["value"], .quantity q u⟩, fired⟩
                | none => ⟨.error .typeError, fired⟩
            | none => ⟨.error .keyError, fired⟩
          else ⟨.ok ⟨path ++ ["value"], v⟩, fired⟩
      | none => ⟨.error .keyError, fired⟩ := by
  unfold set_param_tail
  rw [if_neg (by decide : ¬ ("NumberSlider" = "Quantity")), if_pos rfl]

/-- Python indexing with a non-negative index is plain list lookup. -/
theorem pyListGet_nonneg {α : Type} (l : List α) (i : Int) (h : 0 ≤ i) :
    pyListGet l i = l.get? i.toNat := by
  have hpi : pyIndex i l.length = i := if_neg (not_lt.mpr h)
  unfold pyListGet
  rw [hpi, if_pos h]

/-- Python indexing with an in-range negative index counts from the back. -/
theorem pyListGet_neg {α : Type} (l : List α) (i : Int) (h0 : i < 0)
    (h1 : -(l.length : Int) ≤ i) :
    pyListGet l i = l.get? (i + l.length).toNat := by
  have hpi : pyIndex i l.length = i + l.length := if_pos h0
  unfold pyListGet
  rw [hpi, if_pos (by omega)]

/-- Python indexing outside `[-len, len)` raises `IndexError`. -/
theorem pyListGet_out {α : Type} (l : List α) (i : Int)
    (h : i < -(l.length : Int) ∨ (l.length : Int) ≤ i) :
    pyListGet l i = none := by
  unfold pyListGet
  rcases h with h | h
  · have hpi : pyIndex i l.length = i + l.length := if_pos (by omega)
    rw [hpi, if_neg (by omega)]
  · have hpi : pyIndex i l.length = i := if_neg (by omega)
    rw [hpi, if_pos (by omega), List.get?_eq_none]
    omega

/-! ## Claim C1 -/

/-- Claim C1, counterexample: for a quantity-typed attribute, `set_param`
reads the live leaf attribute (line 124 of the source: `current_value =
get_object_by_path_parts(parent_object, [path_parts[-1]])`) before the
final commit, so the leaf is not "never evaluated for every path and wire
value": writing `10` to the `Quantity`-tagged path `volt` evaluates the
leaf and then commits. -/
theorem set_param_quantity_write_reads_leaf :
    (set_param svcQ cacheQ ["volt"] (.num 10)).leafEvaluated = true
    ∧ (set_param svcQ cacheQ ["volt"] (.num 10)).result =
        .ok ⟨["volt"], .quantity 10 "V"⟩ :=
  ⟨rfl, rfl⟩

/-- Claim C1 (amended): the choice of coercion rule depends only on the
declared type tag from the cached snapshot and on whether the wire value is
an `int` instance, and the live leaf attribute is evaluated before the
final commit exactly when the enum-index rule fires (tag contains `"Enum"`
and the wire value is an integer) or the tag is `"Quantity"` (the live unit
is read); for `"NumberSlider"` and plain tags the leaf is never
evaluated. -/
theorem set_param_leaf_access_characterization
    (svc : LAttrs) (cache : SAttrs) (path : List String) (leaf : String)
    (parent : LiveValue) (tag : String) (nv : SerialValue)
    (pr : Option (List (String × Option String))) (value : Prim)
    (hleaf : path.getLast? = some leaf)
    (hpar : get_object_by_path_parts (.obj svc) path.dropLast = some parent)
    (hcache : get_nested_dict_by_path cache path = some (.mk tag nv pr)) :
    (set_param svc cache path value).leafEvaluated = true ↔
      ((strContains tag "Enum" = true ∧ isInstInt value = true)
        ∨ tag = "Quantity") := by
  rw [set_param_eq svc cache path leaf parent tag nv pr value hleaf hpar hcache]
  by_cases h : strContains tag "Enum" ∧ isInstInt value
  · rw [if_pos h]
    have hr : (strContains tag "Enum" = true ∧ isInstInt value = true)
        ∨ tag = "Quantity" := Or.inl h
    simp only [hr, iff_true]
    repeat' split
    all_goals first
      | rfl
      | (rw [set_param_tail_fired]; simp)
  · rw [if_neg h, set_param_tail_fired, Bool.or_false]
    constructor
    · intro hd
      exact Or.inr (of_decide_eq_true hd)
    · rintro (hc | hq)
      · exact absurd hc h
      · exact decide_eq_true hq

/-- Claim C1 (amended), witness: on the concrete enum service with a
string wire value, neither condition holds and the leaf is untouched. -/
theorem set_param_leaf_access_characterization_witness :
    (set_param svcEnum cacheEnum ["mode"] (.str "B")).leafEvaluated = true ↔
      ((strContains "Enum" "Enum" = true ∧ isInstInt (.str "B") = true)
        ∨ "Enum" = "Quantity") :=
  set_param_leaf_access_characterization svcEnum cacheEnum ["mode"] "mode"
    (.obj svcEnum) "Enum" (.prim (.str "A")) none (.str "B") rfl rfl rfl

/-! ## Claim C2 -/

/-- Claim C2, counterexample: the integer `-1` is not a valid zero-based
position in the three-member list of `clsABC`, yet `set_param` does not
fail with an `IndexError`: Python list indexing wraps negative indices, so
the last member `C` is assigned. -/
theorem set_param_negative_enum_index_assigns :
    ¬ (0 ≤ (-1 : Int))
    ∧ (set_param svcEnum cacheEnum ["mode"] (.int (-1))).result =
        .ok ⟨["mode"], .member ⟨"C", .int 30⟩⟩
    ∧ set_param_commits svcEnum cacheEnum ["mode"] (.int (-1)) =
        [⟨["mode"], .member ⟨"C", .int 30⟩⟩] :=
  ⟨by decide, rfl, rfl⟩

/-- Claim C2 (amended): for an enum-typed attribute and integer wire value
`i`, a valid zero-based position selects the member at that position in
definition order (not by underlying value); `i` outside `[-n, n)` fails
with an `IndexError` and nothing is assigned; a negative `i` in `[-n, 0)`
assigns the member at position `n + i` (Python index wrap-around). -/
theorem set_param_enum_index_semantics
    (svc : LAttrs) (cache : SAttrs) (path : List String) (leaf : String)
    (parent : LiveValue) (cls : List EnumMember) (m0 : EnumMember)
    (tag : String) (nv : SerialValue)
    (pr : Option (List (String × Option String))) (i : Int)
    (hleaf : path.getLast? = some leaf)
    (hpar : get_object_by_path_parts (.obj svc) path.dropLast = some parent)
    (hattr : getattrLive parent leaf = some (.enumVal cls m0))
    (hcache : get_nested_dict_by_path cache path = some (.mk tag nv pr))
    (htag : strContains tag "Enum" = true) :
    (∀ mem : EnumMember, 0 ≤ i → cls.get? i.toNat = some mem →
        (set_param svc cache path (.int i)).result = .ok ⟨path, .member mem⟩)
    ∧ ((i < -(cls.length : Int) ∨ (cls.length : Int) ≤ i) →
        (set_param svc cache path (.int i)).result = .error .indexError
        ∧ set_param_commits svc cache path (.int i) = [])
    ∧ (∀ mem : EnumMember, i < 0 → -(cls.length : Int) ≤ i →
        cls.get? (i + (cls.length : Int)).toNat = some mem →
        (set_param svc cache path (.int i)).result = .ok ⟨path, .member mem⟩) := by
  have heq := set_param_eq svc cache path leaf parent tag nv pr (.int i)
    hleaf hpar hcache
  rw [if_pos ⟨htag, rfl⟩, hattr] at heq
  have heq2 : set_param svc cache path (.int i) =
      (match pyListGet cls i with
        | some mm => set_param_tail parent leaf tag nv path (.member mm) true
        | none => ⟨.error .indexError, true⟩) := by
    rw [heq]
    rfl
  refine ⟨?_, ?_, ?_⟩
  · intro mem h0 hget
    rw [heq2, pyListGet_nonneg cls i h0, hget]
    show (set_param_tail parent leaf tag nv path (.member mem) true).result = _
    rw [set_param_tail_other parent leaf tag nv path (.member mem) true
      (enum_tag_ne_quantity htag) (enum_tag_ne_slider htag)]
  · intro hrange
    have hres : (set_param svc cache path (.int i)).result = .error .indexError := by
      rw [heq2, pyListGet_out cls i hrange]
    refine ⟨hres, ?_⟩
    unfold set_param_commits
    rw [hres]
  · intro mem h0 h1 hget
    rw [heq2, pyListGet_neg cls i h0 h1, hget]
    show (set_param_tail parent leaf tag nv path (.member mem) true).result = _
    rw [set_param_tail_other parent leaf tag nv path (.member mem) true
      (enum_tag_ne_quantity htag) (enum_tag_ne_slider htag)]

/-- Claim C2 (amended), witness: writing integer `1` to the enum attribute
assigns the member at position 1 in definition order, `B` (whose underlying
value is `20`, not `1`). -/
theorem set_param_enum_index_semantics_witness :
    (set_param svcEnum cacheEnum ["mode"] (.int 1)).result =
      .ok ⟨["mode"], .member ⟨"B", .int 20⟩⟩ :=
  (set_param_enum_index_semantics svcEnum cacheEnum ["mode"] "mode"
    (.obj svcEnum) clsABC ⟨"A", .int 10⟩ "Enum" (.prim (.str "A")) none 1
    rfl rfl rfl rfl rfl).1 ⟨"B", .int 20⟩ (by decide) rfl

/-! ## Claim C3 -/

/-- Claim C3: for a `"NumberSlider"`-tagged attribute at path `p`, every
commit of `set_param` goes to the effective path `p ++ ["value"]` and never
to `p` itself; and when the cached inner `value` node is quantity-typed,
the committed value is the wire value paired with the unit recorded in the
cached snapshot (the live service object is arbitrary: the unit does not
come from it, and the live leaf is never evaluated). -/
theorem set_param_number_slider_redirects
    (svc : LAttrs) (cache : SAttrs) (path : List String) (leaf : String)
    (parent : LiveValue) (nv : SerialValue)
    (pr : Option (List (String × Option String))) (value : Prim)
    (hleaf : path.getLast? = some leaf)
    (hpar : get_object_by_path_parts (.obj svc) path.dropLast = some parent)
    (hcache : get_nested_dict_by_path cache path =
      some (.mk "NumberSlider" nv pr)) :
    (∀ c : Commit, (set_param svc cache path value).result = .ok c →
        c.path = path ++ ["value"] ∧ c.path ≠ path)
    ∧ (∀ iv ipr u r,
        childOfSerial nv "value" = some (.mk "Quantity" iv ipr) →
        unitOfSerial iv = some u →
        numOfCoerced (.wire value) = some r →
        (set_param svc cache path value).result =
          .ok ⟨path ++ ["value"], .quantity r u⟩
        ∧ (set_param svc cache path value).leafEvaluated = false) := by
  have heq := set_param_eq svc cache path leaf parent "NumberSlider" nv pr value
    hleaf hpar hcache
  rw [if_neg (fun hc => absurd hc.1 (by decide)), set_param_tail_slider] at heq
  have hne : path ++ ["value"] ≠ path := by
    intro h
    have := congrArg List.length h
    simp at this
  constructor
  · intro c hc
    rw [heq] at hc
    repeat' split at hc
    all_goals try simp_all
    all_goals
      subst hc
    all_goals
      refine ⟨rfl, fun hcontr => ?_⟩
    all_goals
      have hlen := congrArg List.length hcontr
    all_goals
      simp at hlen
  · intro iv ipr u r hch hu hnum
    have hval : set_param svc cache path value =
        ⟨.ok ⟨path ++ ["value"], .quantity r u⟩, false⟩ := by
      rw [heq, hch]
      simp only [hu, hnum]
      simp
    rw [hval]
    exact ⟨rfl, rfl⟩

/-- Claim C3, witness: writing `5/2` to the slider attribute `amp` (whose
cached inner node is a quantity of unit `"A"`) commits magnitude `5/2`
with unit `"A"` at the redirected path `["amp", "value"]`. -/
theorem set_param_number_slider_redirects_witness :
    (set_param svcS cacheS ["amp"] (.num (5/2))).result =
      .ok ⟨["amp", "value"], .quantity (5/2) "A"⟩
    ∧ (set_param svcS cacheS ["amp"] (.num (5/2))).leafEvaluated = false :=
  (set_param_number_slider_redirects svcS cacheS ["amp"] "amp" (.obj svcS)
    (.attrs (.cons "value" (.mk "Quantity" (.quantity 1 "A") none) .nil)) none
    (.num (5/2)) rfl rfl rfl).2
    (.quantity 1 "A") none "A" (5/2) rfl rfl rfl

/-! ## Claim C4 -/

/-- Claim C4: for a `"Quantity"`-tagged attribute whose live value carries
unit `u`, `set_param` with a bare numeric wire value `r` commits the
quantity with magnitude `r` and the unit `u` inherited from the live value
(never supplied by the caller); and a subsequent `get_param` on any service
holding that quantity returns the bare magnitude `r` with the unit
dropped. -/
theorem set_param_quantity_inherits_live_unit
    (svc : LAttrs) (cache : SAttrs) (path : List String) (leaf : String)
    (parent : LiveValue) (nv : SerialValue)
    (pr : Option (List (String × Option String))) (value : Prim)
    (m : ℚ) (u : String) (r : ℚ)
    (hleaf : path.getLast? = some leaf)
    (hpar : get_object_by_path_parts (.obj svc) path.dropLast = some parent)
    (hattr : getattrLive parent leaf = some (.quantity m u))
    (hcache : get_nested_dict_by_path cache path = some (.mk "Quantity" nv pr))
    (hnum : numOfCoerced (.wire value) = some r) :
    (set_param svc cache path value).result = .ok ⟨path, .quantity r u⟩
    ∧ ∀ svc2 : LAttrs,
        get_object_by_path_parts (.obj svc2) path = some (.quantity r u) →
        get_param svc2 path = .ok (.prim (.num r)) := by
  have heq := set_param_eq svc cache path leaf parent "Quantity" nv pr value
    hleaf hpar hcache
  rw [if_neg (fun hc => absurd hc.1 (by decide)),
    set_param_tail_quantity parent leaf nv path (.wire value) false m u r hattr hnum]
    at heq
  refine ⟨by rw [heq], ?_⟩
  intro svc2 h2
  unfold get_param
  rw [h2]
  rfl

/-- Claim C4, witness: writing raw `10` to the quantity attribute `volt`
(live value 5 volt) commits 10 volt, and reading the updated service
returns the bare magnitude `10`. -/
theorem set_param_quantity_inherits_live_unit_witness :
    (set_param svcQ cacheQ ["volt"] (.int 10)).result =
      .ok ⟨["volt"], .quantity 10 "V"⟩
    ∧ get_param svcQ10 ["volt"] = .ok (.prim (.num 10)) :=
  ⟨(set_param_quantity_inherits_live_unit svcQ cacheQ ["volt"] "volt"
      (.obj svcQ) (.quantity 5 "V") none (.int 10) 5 "V" 10
      rfl rfl rfl rfl rfl).1,
    (set_param_quantity_inherits_live_unit svcQ cacheQ ["volt"] "volt"
      (.obj svcQ) (.quantity 5 "V") none (.int 10) 5 "V" 10
      rfl rfl rfl rfl rfl).2 svcQ10 rfl⟩

/-! ## Claim C5 -/

/-- Claim C5: when the live value at a path is an enum member, `get_param`
returns the member's underlying wire-visible value (`param.value`), and
never the member's zero-based position in the definition order (unless the
underlying value happens to coincide with it). -/
theorem get_param_enum_returns_member_value
    (svc : LAttrs) (path : List String) (cls : List EnumMember)
    (m : EnumMember)
    (h : get_object_by_path_parts (.obj svc) path = some (.enumVal cls m)) :
    get_param svc path = .ok (.prim m.value)
    ∧ ∀ k : Nat, m.value ≠ .int k →
        get_param svc path ≠ .ok (.prim (.int k)) := by
  have h1 : get_param svc path = .ok (.prim m.value) := by
    unfold get_param
    rw [h]
    rfl
  refine ⟨h1, fun k hk hbad => ?_⟩
  rw [h1] at hbad
  simp only [Except.ok.injEq, WireOut.prim.injEq] at hbad
  exact hk hbad

/-- Claim C5, witness: reading the enum attribute `mode` (member `A` at
position 0, underlying value `10`) returns `10`, not the ordinal `0`. -/
theorem get_param_enum_returns_member_value_witness :
    get_param svcEnum ["mode"] = .ok (.prim (.int 10))
    ∧ get_param svcEnum ["mode"] ≠ .ok (.prim (.int 0)) :=
  ⟨(get_param_enum_returns_member_value svcEnum ["mode"] clsABC
      ⟨"A", .int 10⟩ rfl).1,
    (get_param_enum_returns_member_value svcEnum ["mode"] clsABC
      ⟨"A", .int 10⟩ rfl).2 0 (by decide)⟩

/-! ## Claim C6 -/

/-- Claim C6: writes are all-or-nothing.  All coercion happens before the
single commit through the attribute-setter primitive, so whenever
`set_param` propagates an error (path resolution, cache lookup, or coercion
such as an out-of-range enum index), no commit is produced and the service
state is left entirely unchanged for every external setter primitive. -/
theorem set_param_all_or_nothing
    (svc : LAttrs) (cache : SAttrs) (path : List String) (value : Prim)
    (e : PyErr)
    (h : (set_param svc cache path value).result = .error e) :
    set_param_commits svc cache path value = []
    ∧ ∀ applyC : LAttrs → Commit → LAttrs,
        set_param_run applyC svc cache path value = svc := by
  have hc : set_param_commits svc cache path value = [] := by
    unfold set_param_commits
    rw [h]
  refine ⟨hc, fun applyC => ?_⟩
  unfold set_param_run
  rw [hc]
  rfl

/-- Claim C6, witness: the out-of-range enum index `3` makes `set_param`
fail with an `IndexError`, producing no commit and leaving the state
unchanged. -/
theorem set_param_all_or_nothing_witness :
    set_param_commits svcEnum cacheEnum ["mode"] (.int 3) = []
    ∧ set_param_run (fun s _ => s) svcEnum cacheEnum ["mode"] (.int 3) =
        svcEnum :=
  ⟨(set_param_all_or_nothing svcEnum cacheEnum ["mode"] (.int 3)
      .indexError rfl).1,
    (set_param_all_or_nothing svcEnum cacheEnum ["mode"] (.int 3)
      .indexError rfl).2 (fun s _ => s)⟩

/-! ## Claim C7 -/

/-- Scanning for a closing quote in a quote-free list finds none. -/
theorem takeUntilQuote_of_not_mem (l : List Char) (h : quoteChar ∉ l) :
    takeUntilQuote l = none := by
  induction l with
  | nil => rfl
  | cons c rest ih =>
    have hcq : ¬ c = quoteChar := by
      intro hc
      subst hc
      exact h (List.mem_cons_self _ _)
    have hrest : quoteChar ∉ rest := fun hm => h (List.mem_cons_of_mem c hm)
    simp [takeUntilQuote, hcq, ih hrest]

/-- Scanning up to the next quote captures exactly the quote-free part
before it. -/
theorem takeUntilQuote_append (mid rest : List Char) (h : quoteChar ∉ mid) :
    takeUntilQuote (mid ++ quoteChar :: rest) = some mid := by
  induction mid with
  | nil => simp [takeUntilQuote]
  | cons c mid2 ih =>
    have hcq : ¬ c = quoteChar := by
      intro hc
      subst hc
      exact h (List.mem_cons_self _ _)
    have hmid2 : quoteChar ∉ mid2 := fun hm => h (List.mem_cons_of_mem c hm)
    simp [takeUntilQuote, hcq, ih hmid2]

/-- Claim C7: `extract_type_name` is total.  On `"<class 'int'>"` it yields
`"int"` and on `"<class 'float'>"` it yields `"float"`; in general, when
the characters decompose around a first quoted group (quote-free text, a
quote, quote-free text, a quote, anything), the quoted group is returned;
and every string containing at most one single quote (hence no quoted
substring) yields `none` instead of raising. -/
theorem extract_type_name_spec :
    extract_type_name "<class 'int'>" = some "int"
    ∧ extract_type_name "<class 'float'>" = some "float"
    ∧ (∀ pre mid rest : List Char, quoteChar ∉ pre → quoteChar ∉ mid →
        extract_type_name ⟨pre ++ quoteChar :: (mid ++ quoteChar :: rest)⟩ =
          some ⟨mid⟩)
    ∧ (∀ s : String, s.data.count quoteChar ≤ 1 → extract_type_name s = none) := by
  refine ⟨rfl, rfl, ?_, ?_⟩
  · intro pre mid rest hpre hmid
    unfold extract_type_name
    have haux : extract_type_name_aux
        (pre ++ quoteChar :: (mid ++ quoteChar :: rest)) = some mid := by
      induction pre with
      | nil =>
        simp [extract_type_name_aux, takeUntilQuote_append mid rest hmid]
      | cons c pre2 ih =>
        have hcq : ¬ c = quoteChar := by
          intro hc
          subst hc
          exact hpre (List.mem_cons_self _ _)
        have hpre2 : quoteChar ∉ pre2 := fun hm => hpre (List.mem_cons_of_mem c hm)
        simp [extract_type_name_aux, hcq, ih hpre2]
    rw [haux]
    rfl
  · intro s hs
    unfold extract_type_name
    have haux : ∀ l : List Char, l.count quoteChar ≤ 1 →
        extract_type_name_aux l = none := by
      intro l
      induction l with
      | nil => intro _; rfl
      | cons c rest ih =>
        intro hcount
        by_cases hc : c = quoteChar
        · subst hc
          have hzero : rest.count quoteChar = 0 := by
            simp [List.count_cons] at hcount
            omega
          have hnm : quoteChar ∉ rest := by
            rw [← List.count_eq_zero]
            exact hzero
          simp [extract_type_name_aux, takeUntilQuote_of_not_mem rest hnm]
        · have hcount2 : rest.count quoteChar ≤ 1 := by
            rw [List.count_cons] at hcount
            omega
          simp [extract_type_name_aux, hc, ih hcount2]
    rw [haux s.data hs]
    rfl

/-- Claim C7, witness: a quote-free annotation string yields `none`, and a
minimal quoted annotation yields the quoted text. -/
theorem extract_type_name_spec_witness :
    extract_type_name "no quotes here" = none
    ∧ extract_type_name ⟨[] ++ quoteChar :: (['a'] ++ quoteChar :: [])⟩ =
        some ⟨['a']⟩ :=
  ⟨extract_type_name_spec.2.2.2 "no quotes here" (by decide),
    extract_type_name_spec.2.2.1 [] ['a'] [] (by decide) (by decide)⟩

/-! ## Claim C10 -/

/-- Claim C10: for an enum-tagged attribute and a wire value that is not an
`int` instance, no enum conversion happens in this layer: the raw wire
value is committed unchanged at the unchanged path, and the live leaf is
not evaluated. -/
theorem set_param_enum_non_int_passthrough
    (svc : LAttrs) (cache : SAttrs) (path : List String) (leaf : String)
    (parent : LiveValue) (tag : String) (nv : SerialValue)
    (pr : Option (List (String × Option String))) (value : Prim)
    (hleaf : path.getLast? = some leaf)
    (hpar : get_object_by_path_parts (.obj svc) path.dropLast = some parent)
    (hcache : get_nested_dict_by_path cache path = some (.mk tag nv pr))
    (htag : strContains tag "Enum" = true)
    (hval : isInstInt value = false) :
    (set_param svc cache path value).result = .ok ⟨path, .wire value⟩
    ∧ (set_param svc cache path value).leafEvaluated = false := by
  have heq := set_param_eq svc cache path leaf parent tag nv pr value
    hleaf hpar hcache
  rw [if_neg (fun hc => by rw [hval] at hc; exact absurd hc.2 (by simp)),
    set_param_tail_other parent leaf tag nv path (.wire value) false
      (enum_tag_ne_quantity htag) (enum_tag_ne_slider htag)] at heq
  rw [heq]
  exact ⟨rfl, rfl⟩

/-- Claim C10, witness: writing the member-name string `"B"` to the enum
attribute passes the raw string through unchanged without touching the live
leaf. -/
theorem set_param_enum_non_int_passthrough_witness :
    (set_param svcEnum cacheEnum ["mode"] (.str "B")).result =
      .ok ⟨["mode"], .wire (.str "B")⟩
    ∧ (set_param svcEnum cacheEnum ["mode"] (.str "B")).leafEvaluated = false :=
  set_param_enum_non_int_passthrough svcEnum cacheEnum ["mode"] "mode"
    (.obj svcEnum) "Enum" (.prim (.str "A")) none (.str "B")
    rfl rfl rfl rfl rfl

/-! ## Claims C8 and C9 -/

/-- Per-node form of the method-serialization update. -/
theorem updateMethodNode_eq (tag : String) (v : SerialValue)
    (ps : Option (List (String × Option String))) :
    updateMethodNode (.mk tag v ps) =
      .mk tag (updateMethodChildren v)
        (if tag = "method" then some (methodParametersOf (updateMethodChildren v))
          else ps) := by
  by_cases h : tag = "method" <;> simp [updateMethodNode, h]

/-- Recursing into children does not change a node's own signature
payload. -/
theorem methodParametersOf_update (v : SerialValue) :
    methodParametersOf (updateMethodChildren v) = methodParametersOf v := by
  cases v <;> rfl

mutual

/-- Structural copying of attribute dicts is the identity. -/
theorem deepcopyAttrs_id (t : SAttrs) : deepcopyAttrs t = t := by
  match t with
  | .nil => rfl
  | .cons n c rest =>
    simp [deepcopyAttrs, deepcopyNode_id c, deepcopyAttrs_id rest]

/-- Structural copying of nodes is the identity. -/
theorem deepcopyNode_id (c : SerializedObject) : deepcopyNode c = c := by
  match c with
  | .mk tag v ps => simp [deepcopyNode, deepcopyValue_id v]

/-- Structural copying of payloads is the identity. -/
theorem deepcopyValue_id (v : SerialValue) : deepcopyValue v = v := by
  match v with
  | .attrs ch => simp [deepcopyValue, deepcopyAttrs_id ch]
  | .prim p => rfl
  | .quantity m u => rfl
  | .signature s => rfl

end

/-- Single-name lookup commutes with the method-serialization update. -/
theorem lookupSAttrs_update (t : SAttrs) (n : String) :
    lookupSAttrs (update_method_serialization t) n =
      (lookupSAttrs t n).map updateMethodNode := by
  match t with
  | .nil => rfl
  | .cons a c rest =>
    by_cases h : a = n
    · simp [update_method_serialization, lookupSAttrs, h]
    · simp [update_method_serialization, lookupSAttrs, h,
        lookupSAttrs_update rest n]

/-- Path lookup commutes with the method-serialization update: the node at
any path of the updated tree is the updated node at that path of the input
tree. -/
theorem get_nested_update (p : List String) (t : SAttrs) :
    get_nested_dict_by_path (update_method_serialization t) p =
      (get_nested_dict_by_path t p).map updateMethodNode := by
  match p with
  | [] => rfl
  | [n] => simp [get_nested_dict_by_path, lookupSAttrs_update]
  | n :: n2 :: rest =>
    simp only [get_nested_dict_by_path, lookupSAttrs_update]
    cases hl : lookupSAttrs t n with
    | none => rfl
    | some c =>
      obtain ⟨tag, v, ps⟩ := c
      cases v with
      | attrs ch =>
        simp [updateMethodNode_eq, updateMethodChildren,
          get_nested_update (n2 :: rest) ch]
      | prim pp => simp [updateMethodNode_eq, updateMethodChildren]
      | quantity mq uq => simp [updateMethodNode_eq, updateMethodChildren]
      | signature sg => simp [updateMethodNode_eq, updateMethodChildren]

/-- Claim C8: `get_props` returns the whole serialized tree: the node at
any path of the output is the node at that path of the serialized service,
with every `"method"`-tagged node (at any depth of the recursive walk)
carrying the `parameters` mapping, which sends each parameter name to the
bare type name extracted from its annotation string; non-method nodes keep
their serialized content. -/
theorem get_props_method_parameters
    (svc : LAttrs) (p : List String) (tag : String) (v : SerialValue)
    (ps : Option (List (String × Option String)))
    (h : get_nested_dict_by_path (serializeAttrs svc) p = some (.mk tag v ps)) :
    get_nested_dict_by_path (get_props svc) p =
      some (.mk tag (updateMethodChildren v)
        (if tag = "method" then some (methodParametersOf v) else ps))
    ∧ ∀ sig, v = .signature sig →
        methodParametersOf v =
          sig.map (fun pr => (pr.1, extract_type_name pr.2)) := by
  constructor
  · unfold get_props
    rw [deepcopyAttrs_id, get_nested_update, h]
    simp [updateMethodNode_eq, methodParametersOf_update]
  · intro sig hsig
    subst hsig
    rfl

/-- Claim C8, witness: the serialized method node `configure` of `svcM`
gains the mapping `gain ↦ int`, `offset ↦ float` extracted from the
verbose annotation strings. -/
theorem get_props_method_parameters_witness :
    get_nested_dict_by_path (get_props svcM) ["configure"] =
      some (.mk "method"
        (.signature [("gain", "<class 'int'>"), ("offset", "<class 'float'>")])
        (some [("gain", some "int"), ("offset", some "float")])) :=
  (get_props_method_parameters svcM ["configure"] "method"
    (.signature [("gain", "<class 'int'>"), ("offset", "<class 'float'>")])
    none rfl).1

/-- Claim C9: the whole-tree read is a pure projection of the service
state: it passes the state through unchanged, and a second call with no
intervening writes returns a structurally identical output. -/
theorem get_props_pure_projection (svc : LAttrs) :
    (get_props_op ((get_props_op svc).2)).1 = (get_props_op svc).1
    ∧ (get_props_op svc).2 = svc :=
  ⟨rfl, rfl⟩

end PydaseIonizer
